import Mathlib

/-!
# Verification of `backend/backend/utils/numbers_and_dates.py`

Shallow embedding of the numeric/currency/date localization pipeline of the
`archidocs` repository: `split_number_parts`, `format_number_pt`,
`num_to_words_pt`, `get_portuguese_month`, `process_total_cost`, `to_number`,
`process_date` and `process_costs_and_dates`.

Modelling conventions:

* A Python value is a `Value`.  `Value.vnum q` stands for a Python `int` or
  finite `float` whose `str()` form has exact decimal value `q : ℚ` (Python's
  `str` of a float is the shortest decimal string that round-trips, and
  `Decimal(str(x))` operates on exactly that decimal value).  `vinf`/`vnan`
  are the non-finite floats, `vnone` is `None`, `vstr` a string.
* Fallible Python code is embedded as `Except PyErr _`; the error constructors
  mirror the exception classes raised (`TypeError`, `ValueError`,
  `OverflowError`, `decimal.InvalidOperation`).  Message strings are
  abbreviations of the CPython/source messages; theorems only depend on the
  error class where the source only guarantees the class.
* The `decimal` module runs under the default context (the repository never
  touches `getcontext()`): 28-digit precision, so `quantize(Decimal('0.01'))`
  raises `InvalidOperation` whenever the rounded result's magnitude reaches
  `10²⁶`, and a quiet NaN propagates through `quantize` (so `to_number` can
  return `nan`).  Python's `==` on such results is `pyEq` (NaN is unequal to
  everything, itself included).
* `f"{x:.2f}"` formats the underlying binary float with correct rounding
  (round-half-to-even).  We model it by round-half-even on the represented
  decimal value; this matches CPython on every value whose hundredfold is not
  an exact half-integer, and every concrete input used in this file is of
  that form.
* `datetime.now()` is real time and cannot be embedded; the current date is
  passed explicitly as a `PtDate` parameter to `process_date` and
  `process_costs_and_dates`.
-/

unseal Rat.mul Rat.add Rat.sub Rat.inv Rat.ofScientific

namespace Archidocs

/-- Python `int(x)` on a number: truncation toward zero. -/
def pytrunc (q : ℚ) : ℤ :=
  if 0 ≤ q then ⌊q⌋ else -⌊-q⌋

/-- Correct rounding to the nearest integer with ties to even, as performed by
CPython's fixed-point float formatting `f"{x:.2f}"` (scaled by 100). -/
def roundHalfEven (q : ℚ) : ℤ :=
  let n := ⌊q⌋
  if q - n < 1/2 then n
  else if 1/2 < q - n then n + 1
  else if n % 2 = 0 then n else n + 1

/-- `Decimal.quantize(Decimal('0.01'), rounding=ROUND_HALF_UP)`: round to two
fractional digits, ties away from zero. -/
def quantizeHU (q : ℚ) : ℚ :=
  if 0 ≤ q then (⌊100 * q + 1/2⌋ : ℚ) / 100
  else -((⌊100 * (-q) + 1/2⌋ : ℚ) / 100)

/-- The two-digit decimal part extracted by `split_number_parts`:
`f"{number:.2f}"` is split at `'.'` and the fractional field read back as an
integer, i.e. the half-even rounding of `100·|q|` reduced mod 100. -/
def dec2 (q : ℚ) : ℕ :=
  (roundHalfEven (|q| * 100)).toNat % 100

/-- Exception classes relevant to this module. -/
inductive PyErr where
  | typeError (msg : String)
  | valueError (msg : String)
  | overflowError (msg : String)
  | invalidOperation (msg : String)
deriving DecidableEq

/-- The Python values flowing through the pipeline.  `vnum q` is an `int` or a
finite `float` whose `str()` form has exact value `q` (see the module
conventions above). -/
inductive Value where
  | vnum (q : ℚ)
  | vinf (pos : Bool)
  | vnan
  | vnone
  | vstr (s : String)
deriving DecidableEq

deriving instance DecidableEq for Except

/-- Numeric value of a list of decimal digit characters. -/
def natOfDigits (ds : List Char) : ℕ :=
  ds.foldl (fun a c => 10 * a + (c.toNat - 48)) 0

/-- The value classes a `Decimal(string)` construction can produce: a finite
value, an infinity, a quiet NaN (optionally with a payload) or a signaling
NaN. -/
inductive DecValue where
  | finite (q : ℚ)
  | inf
  | nan
  | snan
deriving DecidableEq

/-- ASCII whitespace stripped by `str.strip()` (the unicode extras are
irrelevant to every string occurring here). -/
def isPyWs (c : Char) : Bool :=
  c = ' ' ∨ c = '\t' ∨ c = '\n' ∨ c = '\r' ∨ c = Char.ofNat 11 ∨ c = Char.ofNat 12

/-- The preprocessing of CPython's reference `Decimal` constructor
(`_pydecimal`): `value.strip().replace("_", "")`. -/
def stripCore (s : String) : List Char :=
  (((s.data.dropWhile isPyWs).reverse.dropWhile isPyWs).reverse).filter
    (fun c => ¬ c = '_')

/-- Strip an optional leading sign, returning whether it was `'-'`. -/
def signSplit (cs : List Char) : Bool × List Char :=
  match cs with
  | [] => (false, [])
  | c :: t =>
    if c = '+' then (false, t)
    else if c = '-' then (true, t)
    else (false, c :: t)

/-- The exponent part after the `'e'`/`'E'` indicator: optional sign and a
non-empty digit string. -/
def parseExp (cs : List Char) : Option (Bool × ℕ) :=
  let p := signSplit cs
  if p.2 ≠ [] ∧ p.2.all Char.isDigit then some (p.1, natOfDigits p.2) else none

/-- The `decimal-part [exponent-part]` production of the `Decimal` numeric
string grammar: digits, an optional `'.'` with fraction digits (at least one
digit overall), and an optional exponent. -/
def parseNumeric (rest : List Char) : Option ℚ :=
  let intDs := rest.takeWhile Char.isDigit
  let r1 := rest.dropWhile Char.isDigit
  let p : List Char × List Char :=
    match r1 with
    | [] => ([], [])
    | c :: t =>
      if c = '.' then (t.takeWhile Char.isDigit, t.dropWhile Char.isDigit)
      else ([], c :: t)
  let fracDs := p.1
  let r2 := p.2
  if intDs = [] ∧ fracDs = [] then none
  else
    let base : ℚ := (natOfDigits (intDs ++ fracDs) : ℚ) / 10 ^ fracDs.length
    match r2 with
    | [] => some base
    | e :: t =>
      if e.toLower = 'e' then
        match parseExp t with
        | some (en, ev) => some (if en then base / 10 ^ ev else base * 10 ^ ev)
        | none => none
      else none

/-- After sign stripping: the specials (`inf`/`infinity`, `nan[digits]`,
`snan[digits]`, all case-insensitive) or a numeric string. -/
def parseDecimalCore (cs : List Char) : Option DecValue :=
  let p := signSplit cs
  let neg := p.1
  let rest := p.2
  let low := rest.map Char.toLower
  if low = "inf".data ∨ low = "infinity".data then some .inf
  else if "nan".data.isPrefixOf low ∧ (low.drop 3).all Char.isDigit then some .nan
  else if "snan".data.isPrefixOf low ∧ (low.drop 4).all Char.isDigit then
    some .snan
  else (parseNumeric rest).map (fun q => .finite (if neg then -q else q))

/-- Model of the `Decimal(string)` constructor: strip surrounding whitespace,
drop underscores, then parse `[sign] (numeric-value | infinity | nan)` per
the `decimal` module's numeric-string grammar (construction is exact and not
subject to the context precision).  The sign of an infinity and the payload
of a NaN are dropped: no caller below distinguishes them (`quantize` raises
on any infinity and propagates any quiet NaN). -/
def parseDecimal (s : String) : Option DecValue :=
  parseDecimalCore (stripCore s)

/-- Fractional digits of `r / d` by long division (`fuel` bounds the digit
count; the rationals rendered here all terminate well within it). -/
def fracDigits : ℕ → ℕ → ℕ → String
  | 0, _, _ => ""
  | _ + 1, 0, _ => ""
  | fuel + 1, r, d => toString (r * 10 / d) ++ fracDigits fuel (r * 10 % d) d

/-- Python `str` on the values of this development.  For `vnum` the rendering
is a decimal form of the represented value (the `int`/`float` cosmetic
difference `"2"` vs `"2.0"` is immaterial: no theorem below inspects the
string form of a number through this function). -/
def pyStr (v : Value) : String :=
  match v with
  | .vnum q =>
    let sign := if q < 0 then "-" else ""
    let n := q.num.natAbs
    if n % q.den = 0 then sign ++ toString (n / q.den)
    else sign ++ toString (n / q.den) ++ "." ++ fracDigits 400 (n % q.den) q.den
  | .vinf pos => if pos then "inf" else "-inf"
  | .vnan => "nan"
  | .vnone => "None"
  | .vstr s => s

/-- `to_number` (source lines 168–193): reject infinities with a `ValueError`;
otherwise convert `Decimal(str(variable))` (exact) and quantize half-up to
two decimals under the *default context* (28-digit precision): the quantize
raises `decimal.InvalidOperation` exactly when the rounded result's
coefficient exceeds 28 digits, i.e. when its magnitude reaches `10²⁶`.  A
quiet NaN passes through `quantize` unchanged and `float(...)` returns `nan`;
quantizing an infinity or a signaling NaN raises `InvalidOperation`.  On a
surviving finite value the final `float(...)` round-trip preserves the
two-decimal value (far below the float range). -/
def to_number (value : Value) : Except PyErr Value :=
  match value with
  | .vinf _ => .error (.valueError "Cannot convert infinity values to numbers")
  | .vnan => .ok .vnan
  | .vnum q =>
    if 10 ^ 26 ≤ |quantizeHU q| then
      .error (.invalidOperation "quantize result has too many digits for current context")
    else .ok (.vnum (quantizeHU q))
  | .vnone => .error (.invalidOperation "could not convert string to Decimal")
  | .vstr s =>
    match parseDecimal s with
    | some (.finite q) =>
      if 10 ^ 26 ≤ |quantizeHU q| then
        .error (.invalidOperation "quantize result has too many digits for current context")
      else .ok (.vnum (quantizeHU q))
    | some .nan => .ok .vnan
    | some .inf => .error (.invalidOperation "quantize with an INF")
    | some .snan => .error (.invalidOperation "sNaN")
    | none => .error (.invalidOperation "could not convert string to Decimal")

/-- `split_number_parts` (source lines 9–26): `int(number)` and the fraction
field of `f"{number:.2f}"`.  Non-numbers raise inside `int()`/the format spec:
`int(None)` is a `TypeError`, `int(float('inf'))` an `OverflowError`,
`int(float('nan'))` a `ValueError`, and a `str` argument raises a `ValueError`
(either in `int()` or in the `'f'` format spec). -/
def split_number_parts (number : Value) : Except PyErr (ℤ × ℕ) :=
  match number with
  | .vnum q => .ok (pytrunc q, dec2 q)
  | .vinf _ => .error (.overflowError "cannot convert float infinity to integer")
  | .vnan => .error (.valueError "cannot convert float NaN to integer")
  | .vnone => .error (.typeError "int() argument must be a real number, not NoneType")
  | .vstr _ => .error (.valueError "invalid literal or format code for str")

/-- The thousands-separator loop of `format_number_pt` (source lines 43–47):
walk the *signed* digit string right-to-left, prepending `'.'` before every
index divisible by 3 (except index 0). -/
def sepThousandsL (ds : List Char) : List Char :=
  (ds.reverse.enum).foldl
    (fun acc p => p.2 :: (if 0 < p.1 ∧ p.1 % 3 = 0 then '.' :: acc else acc)) []

/-- `f"{dec_part:02d}"`: zero-padded two-digit field. -/
def pad2 (d : ℕ) : String :=
  if d < 10 then "0" ++ toString d else toString d

/-- The pure body of `format_number_pt` after `split_number_parts`. -/
def fmtCore (int_part : ℤ) (dec_part : ℕ) (show_decimals : Bool)
    (currency_symbol : String) : String :=
  let int_part_with_sep := String.mk (sepThousandsL (toString int_part).data)
  let result :=
    if show_decimals then int_part_with_sep ++ "," ++ pad2 dec_part
    else int_part_with_sep
  if currency_symbol = "" then result else result ++ " " ++ currency_symbol

/-- `format_number_pt` (source lines 28–59). -/
def format_number_pt (number : Value) (show_decimals : Bool := true)
    (currency_symbol : String := "€") : Except PyErr String := do
  let (int_part, dec_part) ← split_number_parts number
  return fmtCore int_part dec_part show_decimals currency_symbol

/-- Cardinal words 1–9 (European Portuguese). -/
def unitsWord : ℕ → String
  | 1 => "um" | 2 => "dois" | 3 => "três" | 4 => "quatro" | 5 => "cinco"
  | 6 => "seis" | 7 => "sete" | 8 => "oito" | 9 => "nove" | _ => ""

/-- Cardinal words 10–19 (European Portuguese). -/
def teensWord : ℕ → String
  | 10 => "dez" | 11 => "onze" | 12 => "doze" | 13 => "treze" | 14 => "catorze"
  | 15 => "quinze" | 16 => "dezasseis" | 17 => "dezassete" | 18 => "dezoito"
  | 19 => "dezanove" | _ => ""

/-- Cardinal words for the tens 20–90. -/
def tensWord : ℕ → String
  | 2 => "vinte" | 3 => "trinta" | 4 => "quarenta" | 5 => "cinquenta"
  | 6 => "sessenta" | 7 => "setenta" | 8 => "oitenta" | 9 => "noventa" | _ => ""

/-- Cardinal words for the hundreds 100–900 standing alone. -/
def hundredsWord : ℕ → String
  | 1 => "cem" | 2 => "duzentos" | 3 => "trezentos" | 4 => "quatrocentos"
  | 5 => "quinhentos" | 6 => "seiscentos" | 7 => "setecentos" | 8 => "oitocentos"
  | 9 => "novecentos" | _ => ""

/-- Cardinal words below 100. -/
def below100 (n : ℕ) : String :=
  if n < 10 then unitsWord n
  else if n < 20 then teensWord n
  else if n % 10 = 0 then tensWord (n / 10)
  else tensWord (n / 10) ++ " e " ++ unitsWord (n % 10)

/-- Cardinal words below 1000 ("cem"/"cento" distinction included). -/
def below1000 (n : ℕ) : String :=
  if n < 100 then below100 n
  else if n = 100 then "cem"
  else if n < 200 then "cento e " ++ below100 (n - 100)
  else if n % 100 = 0 then hundredsWord (n / 100)
  else hundredsWord (n / 100) ++ " e " ++ below100 (n % 100)

/-- Cardinal words for a natural number.  Joins a thousands group to the
remainder with " e " exactly when the remainder is below 100 or a round
hundred, as the library does ("mil e vinte", "mil e cem", but
"mil duzentos e trinta e quatro"). -/
def natWords (n : ℕ) : String :=
  if n = 0 then "zero"
  else if n < 1000 then below1000 n
  else if n < 1000000 then
    let t := n / 1000
    let r := n % 1000
    let tp := if t = 1 then "mil" else below1000 t ++ " mil"
    if r = 0 then tp
    else if r < 100 ∨ r % 100 = 0 then tp ++ " e " ++ below1000 r
    else tp ++ " " ++ below1000 r
  else toString n

/-- Modelled from the spec: the third-party `num2words` library (language
`pt_pt`) is not part of the sources.  The word forms follow the spec's
examples and the repository's test expectations ("zero", "um", "dez", "cem",
"mil", "vinte e seis", "mil duzentos e trinta e quatro", "menos um", …).
The model covers `|n| < 10⁶`, the range exercised by every word-level theorem
below; outside it the model returns the digit string (no theorem in this file
depends on word forms there, only on totality — the library is total as
well). -/
def num2words (n : ℤ) (lang : String := "pt_pt") : String :=
  let _ := lang
  if n < 0 then "menos " ++ natWords (-n).toNat else natWords n.toNat

/-- Python's substring test `pat in s`. -/
def strContains (s pat : String) : Bool :=
  (List.range (s.data.length + 1)).any fun i => pat.data.isPrefixOf (s.data.drop i)

/-- Python's `s.startswith(pat)`. -/
def strStartsWith (s pat : String) : Bool :=
  pat.data.isPrefixOf s.data

/-- One pass of Python's `str.replace`: scan left to right, replacing each
(non-overlapping) occurrence of `pat` and skipping past it.  `fuel` is the
remaining length bound; the callers pass the string's length and a non-empty
pattern, which consumes at least one character per step. -/
def replaceLF : ℕ → List Char → List Char → List Char → List Char
  | 0, s, _, _ => s
  | fuel + 1, s, pat, sub =>
    match s with
    | [] => []
    | c :: rest =>
      if pat.isPrefixOf (c :: rest) then
        sub ++ replaceLF fuel ((c :: rest).drop pat.length) pat sub
      else c :: replaceLF fuel rest pat sub

/-- Python's `s.replace(pat, sub)` (for the non-empty patterns used here). -/
def strReplace (s pat sub : String) : String :=
  String.mk (replaceLF s.data.length s.data pat.data sub.data)

/-- The "mil" comma-insertion step of `num_to_words_pt` (source lines 80–90):
when the word form contains "mil", the integer exceeds 1000 and is not a
multiple of 1000, insert a comma after a leading `"mil "` or an inner
`" mil "` (Python's `str.replace` replaces every occurrence); a trailing
`" mil"` and all other shapes are left unchanged. -/
def milComma (int_words : String) (int_part : ℤ) : String :=
  if strContains int_words "mil" ∧ 1000 < int_part ∧ int_part % 1000 ≠ 0 then
    if strContains int_words " mil " then strReplace int_words " mil " " mil, "
    else if strStartsWith int_words "mil " then strReplace int_words "mil " "mil, "
    else int_words
  else int_words

/-- The body of `num_to_words_pt`'s `try` block after `split_number_parts`
(source lines 77–119), as a function of the integer part, the decimal part
and the optional currency. -/
def wordsCore (int_part : ℤ) (decimal_part : ℕ) (currency : Option String)
    (lang : String) : String :=
  let int_words := milComma (num2words int_part lang) int_part
  match currency with
  | some cur =>
    let result :=
      if int_part = 1 then int_words ++ " " ++ cur
      else int_words ++ " " ++ cur ++ "s"
    if 0 < decimal_part then
      let cent_words := num2words decimal_part lang
      if decimal_part = 1 then result ++ " e " ++ cent_words ++ " centavo"
      else result ++ " e " ++ cent_words ++ " centavos"
    else result
  | none =>
    if 0 < decimal_part then
      int_words ++ ", " ++ num2words decimal_part lang
    else int_words

/-- The `try` block of `num_to_words_pt` (source lines 71–119): everything
that can raise is the `split_number_parts` call (`num2words` is total on the
modelled inputs, and the library call sites cannot raise for any value that
survived `split_number_parts`). -/
def num_to_words_ptE (number : Value) (currency : Option String)
    (lang : String) : Except PyErr String := do
  let (int_part, decimal_part) ← split_number_parts number
  return wordsCore int_part decimal_part currency lang

/-- `num_to_words_pt` (source lines 61–123): the `try`/`except` wrapper —
on any internal exception, fall back to `str(number)`. -/
def num_to_words_pt (number : Value) (currency : Option String := none)
    (lang : String := "pt_pt") : String :=
  match num_to_words_ptE number currency lang with
  | .ok s => s
  | .error _ => pyStr number

/-- `get_portuguese_month` (source lines 126–142). -/
def get_portuguese_month (month_number : ℕ) : String :=
  match month_number with
  | 1 => "janeiro" | 2 => "fevereiro" | 3 => "março" | 4 => "abril"
  | 5 => "maio" | 6 => "junho" | 7 => "julho" | 8 => "agosto"
  | 9 => "setembro" | 10 => "outubro" | 11 => "novembro" | 12 => "dezembro"
  | _ => ""

/-- The current wall-clock date (`datetime.now()` cannot be embedded; the
month/year pair is threaded through explicitly). -/
structure PtDate where
  month : ℕ
  year : ℕ
deriving DecidableEq

/-- The string stored under `'date'` by `process_date`. -/
def dateStr (now : PtDate) : String :=
  get_portuguese_month now.month ++ " de " ++ toString now.year

/-- Lookup in a Python dict modelled as an association list (keys unique by
construction; first match wins). -/
def dictGet (m : List (String × Value)) (k : String) : Option Value :=
  match m with
  | [] => none
  | (k', v) :: t => if k' = k then some v else dictGet t k

/-- Python dict assignment `m[k] = v`: replace the value at an existing key
in place, else append the new pair. -/
def dictSet (m : List (String × Value)) (k : String) (v : Value) :
    List (String × Value) :=
  match m with
  | [] => [(k, v)]
  | (k', v') :: t => if k' = k then (k, v) :: t else (k', v') :: dictSet t k v

/-- `process_date` (source lines 195–200): store the Portuguese-style current
date under `'date'`.  The source mutates the dict it is handed (which inside
the pipeline is the fresh copy made by `process_costs_and_dates`) and returns
it; modelled functionally. -/
def process_date (now : PtDate) (vars : List (String × Value)) :
    List (String × Value) :=
  dictSet vars "date" (.vstr (dateStr now))

/-- `isinstance(x, (int, float))`: numbers, including the non-finite floats. -/
def isNumeric : Value → Bool
  | .vnum _ => true
  | .vinf _ => true
  | .vnan => true
  | _ => false

/-- Python float multiplication on the numeric values of this development
(finite products are modelled exactly; the binary rounding of the product is
invisible to every theorem below, which only uses finite×finite or the error
paths). -/
def floatMul : Value → Value → Value
  | .vnum a, .vnum b => .vnum (a * b)
  | .vnum a, .vinf s => if a = 0 then .vnan else .vinf (s = decide (0 < a))
  | .vinf s, .vnum b => if b = 0 then .vnan else .vinf (s = decide (0 < b))
  | .vinf s, .vinf t => .vinf (s = t)
  | _, _ => .vnan

/-- Python `==` restricted to the values of this development: a NaN compares
unequal to everything (itself included), numbers and infinities compare by
value and strings by content; values of different kinds compare unequal. -/
def pyEq : Value → Value → Bool
  | .vnan, _ => false
  | _, .vnan => false
  | .vnum a, .vnum b => a = b
  | .vinf s, .vinf t => s = t
  | .vstr s, .vstr t => s = t
  | .vnone, .vnone => true
  | _, _ => false

/-- `process_total_cost` (source lines 145–166): reject non-numeric
arguments with a `TypeError`, multiply, and round through `to_number`. -/
def process_total_cost (qty cost_per_unit : Value) : Except PyErr Value :=
  if isNumeric qty ∧ isNumeric cost_per_unit then
    to_number (floatMul qty cost_per_unit)
  else
    .error (.typeError "Both quantity and cost_per_unit must be numeric values")

/-- `process_costs_and_dates` (source lines 202–238): copy the input map
(modelled by purity — the caller's list is never rebuilt in place), set the
date, and when both `'qty'` and `'cost_per_unit'` are present run the cost
stage; the function installs no exception handler, so any error from
`to_number` / `process_total_cost` / `format_number_pt` propagates. -/
def process_costs_and_dates (now : PtDate) (vars : List (String × Value)) :
    Except PyErr (List (String × Value)) :=
  let vars := process_date now vars
  match dictGet vars "qty", dictGet vars "cost_per_unit" with
  | some qv, some cv => do
    let qty ← to_number qv
    let cost_per_unit ← to_number cv
    let total_cost ← process_total_cost qty cost_per_unit
    let total_cost_words := num_to_words_pt total_cost (some "euro")
    let total_cost_formatted ← format_number_pt total_cost true "€"
    let vars := dictSet vars "total_cost" (.vstr total_cost_formatted)
    let vars := dictSet vars "total_cost_words" (.vstr total_cost_words)
    let qtyFmt ← format_number_pt qty true ""
    let cpuFmt ← format_number_pt cost_per_unit true "€"
    let vars := dictSet vars "qty" (.vstr qtyFmt)
    let vars := dictSet vars "cost_per_unit" (.vstr cpuFmt)
    return vars
  | _, _ => return vars

/-! ## Helper lemmas about the half-up rounding -/

theorem quantizeHU_of_nonneg {q : ℚ} (h : 0 ≤ q) :
    quantizeHU q = (⌊100 * q + 1/2⌋ : ℚ) / 100 := by
  simp [quantizeHU, h]

theorem quantizeHU_neg (q : ℚ) : quantizeHU (-q) = -quantizeHU q := by
  by_cases h : 0 ≤ q
  · by_cases h' : 0 ≤ -q
    · have hq0 : q = 0 := le_antisymm (by linarith) h
      subst hq0
      norm_num [quantizeHU]
    · simp [quantizeHU, h, h', neg_neg]
  · have h' : 0 ≤ -q := by push_neg at h; linarith
    simp [quantizeHU, h, h']

theorem exists_int_quantizeHU (q : ℚ) : ∃ n : ℤ, quantizeHU q = (n : ℚ) / 100 := by
  by_cases h : 0 ≤ q
  · exact ⟨⌊100 * q + 1/2⌋, by simp [quantizeHU, h]⟩
  · refine ⟨-⌊100 * (-q) + 1/2⌋, ?_⟩
    simp only [quantizeHU, h, if_false]
    push_cast
    ring

theorem den_hundred_mul_quantizeHU (q : ℚ) : (100 * quantizeHU q).den = 1 := by
  obtain ⟨n, hn⟩ := exists_int_quantizeHU q
  have : (100 : ℚ) * ((n : ℚ) / 100) = (n : ℚ) := by
    field_simp
  rw [hn, this]
  exact Rat.den_intCast n

theorem quantizeHU_nonneg {q : ℚ} (h : 0 ≤ q) : 0 ≤ quantizeHU q := by
  rw [quantizeHU_of_nonneg h]
  have h1 : (0 : ℤ) ≤ ⌊100 * q + 1/2⌋ := by
    apply Int.le_floor.mpr
    push_cast
    linarith
  have h2 : (0 : ℚ) ≤ (⌊100 * q + 1/2⌋ : ℚ) := by exact_mod_cast h1
  linarith

theorem quantizeHU_nonpos {q : ℚ} (h : q ≤ 0) : quantizeHU q ≤ 0 := by
  have h1 : 0 ≤ quantizeHU (-q) := quantizeHU_nonneg (by linarith)
  rw [quantizeHU_neg] at h1
  linarith

theorem abs_quantizeHU (q : ℚ) : |quantizeHU q| = quantizeHU |q| := by
  rcases le_or_lt 0 q with h | h
  · rw [abs_of_nonneg h, abs_of_nonneg (quantizeHU_nonneg h)]
  · rw [abs_of_neg h, quantizeHU_neg, abs_of_nonpos (quantizeHU_nonpos h.le)]

theorem abs_quantizeHU_sub_le (q : ℚ) : |quantizeHU q - q| ≤ 1/200 := by
  suffices H : ∀ r : ℚ, 0 ≤ r → |quantizeHU r - r| ≤ 1/200 by
    rcases le_or_lt 0 q with h | h
    · exact H q h
    · have h1 := H (-q) (by linarith)
      rw [quantizeHU_neg] at h1
      calc |quantizeHU q - q| = |-quantizeHU q - -q| := by rw [← abs_neg]; ring_nf
        _ ≤ 1/200 := h1
  intro r hr
  rw [quantizeHU_of_nonneg hr]
  have h1 : (⌊100 * r + 1/2⌋ : ℚ) ≤ 100 * r + 1/2 := Int.floor_le _
  have h2 : 100 * r + 1/2 < (⌊100 * r + 1/2⌋ : ℚ) + 1 := Int.lt_floor_add_one _
  rw [abs_le]
  constructor <;> linarith

theorem quantizeHU_tie {q : ℚ} (h : Int.fract (100 * |q|) = 1/2) :
    |quantizeHU q| = |q| + 1/200 := by
  rw [abs_quantizeHU]
  set r := |q| with hr
  have hr0 : 0 ≤ r := abs_nonneg q
  have hfl : (⌊100 * r⌋ : ℚ) = 100 * r - 1/2 := by
    have := Int.self_sub_fract (100 * r)
    rw [h] at this
    linarith
  have : ⌊100 * r + 1/2⌋ = ⌊100 * r⌋ + 1 := by
    have : 100 * r + 1/2 = ((⌊100 * r⌋ + 1 : ℤ) : ℚ) := by push_cast; linarith
    rw [this, Int.floor_intCast]
  rw [quantizeHU_of_nonneg hr0, this]
  push_cast
  rw [hfl]
  ring

theorem floor_intCast_add_half (n : ℤ) : ⌊(n : ℚ) + 1/2⌋ = n := by
  rw [Int.floor_int_add]
  norm_num [Int.floor_eq_zero_iff, Set.mem_Ico]

theorem quantizeHU_eq_self {q : ℚ} (h : (100 * q).den = 1) : quantizeHU q = q := by
  suffices H : ∀ r : ℚ, 0 ≤ r → (100 * r).den = 1 → quantizeHU r = r by
    rcases le_or_lt 0 q with h0 | h0
    · exact H q h0 h
    · have hd : (100 * -q).den = 1 := by
        rw [show (100 : ℚ) * -q = -(100 * q) by ring, Rat.neg_den]
        exact h
      have h1 := H (-q) (by linarith) hd
      rw [quantizeHU_neg] at h1
      linarith
  intro r hr hd
  have hn : ((100 * r).num : ℚ) = 100 * r := Rat.coe_int_num_of_den_eq_one hd
  rw [quantizeHU_of_nonneg hr]
  have hfl : ⌊100 * r + 1/2⌋ = (100 * r).num := by
    rw [show (100 : ℚ) * r + 1/2 = ((100 * r).num : ℚ) + 1/2 by rw [hn]]
    exact floor_intCast_add_half _
  rw [hfl, hn]
  ring

/-- `quantizeHU q` is a nearest multiple of `1/100` to `q`, and any other
two-decimal value within `1/200` of `q` (the opposite side of an exact tie)
has strictly smaller absolute value: ties round away from zero. -/
theorem quantizeHU_nearest_max (q r' : ℚ) (hd : (100 * r').den = 1)
    (hn : |r' - q| ≤ 1/200) : r' = quantizeHU q ∨ |r'| < |quantizeHU q| := by
  suffices H : ∀ (s t : ℚ), 0 ≤ s → (100 * t).den = 1 → |t - s| ≤ 1/200 →
      t = quantizeHU s ∨ |t| < |quantizeHU s| by
    rcases le_or_lt 0 q with h0 | h0
    · exact H q r' h0 hd hn
    · have hd' : (100 * -r').den = 1 := by
        rw [show (100 : ℚ) * -r' = -(100 * r') by ring, Rat.neg_den]
        exact hd
      have hn' : |-r' - -q| ≤ 1/200 := by
        rw [show -r' - -q = -(r' - q) by ring, abs_neg]
        exact hn
      rcases H (-q) (-r') (by linarith) hd' hn' with h1 | h1
      · left
        rw [quantizeHU_neg] at h1
        linarith
      · right
        rw [quantizeHU_neg, abs_neg, abs_neg] at h1
        exact h1
  intro s t hs hdt ht
  have hnum : ((100 * t).num : ℚ) = 100 * t := Rat.coe_int_num_of_den_eq_one hdt
  set m := (100 * t).num with hmdef
  set n := ⌊100 * s + 1/2⌋ with hndef
  have hqs : quantizeHU s = (n : ℚ) / 100 := quantizeHU_of_nonneg hs
  have htval : t = (m : ℚ) / 100 := by
    have : (m : ℚ) = 100 * t := hnum
    linarith
  have habs := abs_le.mp ht
  have hub : (m : ℚ) ≤ 100 * s + 1/2 := by linarith [hnum, habs.2]
  have hlb : 100 * s - 1/2 ≤ (m : ℚ) := by linarith [hnum, habs.1]
  have hfub : (n : ℚ) ≤ 100 * s + 1/2 := Int.floor_le _
  have hflb : 100 * s + 1/2 < (n : ℚ) + 1 := Int.lt_floor_add_one _
  by_cases heq : m = n
  · left
    rw [htval, hqs, heq]
  · right
    have h2 : m < n + 1 := by exact_mod_cast (by linarith : (m : ℚ) < (n : ℚ) + 1)
    have h6 : n - 1 ≤ m := by exact_mod_cast (by linarith : ((n : ℚ) - 1) ≤ (m : ℚ))
    have h7 : m = n - 1 := by omega
    have h8 : (m : ℚ) = (n : ℚ) - 1 := by exact_mod_cast h7
    have hn0 : (0 : ℤ) < n := by
      exact_mod_cast (by linarith : (0 : ℚ) < (n : ℚ))
    have hncast : (1 : ℚ) ≤ (n : ℚ) := by exact_mod_cast hn0
    have habs1 : |(m : ℚ) / 100| = (m : ℚ) / 100 := abs_of_nonneg (by linarith)
    have habs2 : |(n : ℚ) / 100| = (n : ℚ) / 100 := abs_of_nonneg (by linarith)
    rw [htval, hqs, habs1, habs2]
    linarith

/-! ## Helper lemmas about dicts, the decimal parser and strings -/

theorem dictGet_dictSet_self (m : List (String × Value)) (k : String) (v : Value) :
    dictGet (dictSet m k v) k = some v := by
  induction m with
  | nil => simp [dictSet, dictGet]
  | cons p t ih =>
    obtain ⟨k', v'⟩ := p
    by_cases h : k' = k <;> simp [dictSet, dictGet, h, ih]

theorem dictGet_dictSet_ne (m : List (String × Value)) {k k' : String} (v : Value)
    (h : k' ≠ k) : dictGet (dictSet m k v) k' = dictGet m k' := by
  have hne : k ≠ k' := fun he => h he.symm
  induction m with
  | nil => simp [dictSet, dictGet, hne]
  | cons p t ih =>
    obtain ⟨a, b⟩ := p
    by_cases h2 : a = k
    · subst h2
      simp [dictSet, dictGet, hne]
    · by_cases h3 : a = k' <;> simp [dictSet, dictGet, h2, h3, ih, h]

theorem mem_dropWhile_of_not {p : Char → Bool} {l : List Char} {c : Char}
    (hc : p c = false) (h : c ∈ l) : c ∈ l.dropWhile p := by
  have hsplit := List.takeWhile_append_dropWhile (p := p) (l := l)
  rcases List.mem_append.mp (by rw [hsplit]; exact h) with hm | hm
  · have := List.mem_takeWhile_imp hm
    rw [hc] at this
    cases this
  · exact hm

theorem comma_mem_stripCore {s : String} (h : ',' ∈ s.data) : ',' ∈ stripCore s := by
  unfold stripCore
  apply List.mem_filter.mpr
  refine ⟨?_, by decide⟩
  rw [List.mem_reverse]
  apply mem_dropWhile_of_not (by decide)
  rw [List.mem_reverse]
  exact mem_dropWhile_of_not (by decide) h

theorem comma_mem_tail {c : Char} {t : List Char} (h : ',' ∈ c :: t)
    (hc : ¬ c = ',') : ',' ∈ t := by
  rcases List.mem_cons.mp h with h1 | h1
  · exact absurd h1.symm hc
  · exact h1

theorem signSplit_comma {cs : List Char} (h : ',' ∈ cs) :
    ',' ∈ (signSplit cs).2 := by
  cases cs with
  | nil => cases h
  | cons c t =>
    by_cases h1 : c = '+'
    · subst h1
      simp only [signSplit, if_pos rfl]
      exact comma_mem_tail h (by decide)
    · by_cases h2 : c = '-'
      · subst h2
        simp only [signSplit, if_neg h1, if_pos rfl]
        exact comma_mem_tail h (by decide)
      · simpa only [signSplit, if_neg h1, if_neg h2] using h

theorem not_all_digit_of_comma {t : List Char} (h : ',' ∈ t) :
    ¬ (t.all Char.isDigit = true) := by
  intro hall
  have := List.all_eq_true.mp hall ',' h
  simp at this

theorem parseExp_none_of_comma {cs : List Char} (h : ',' ∈ cs) :
    parseExp cs = none := by
  have h2 := signSplit_comma h
  unfold parseExp
  have h3 : ¬ ((signSplit cs).2 ≠ [] ∧ (signSplit cs).2.all Char.isDigit = true) :=
    fun hcon => not_all_digit_of_comma h2 hcon.2
  show (if (signSplit cs).2 ≠ [] ∧ (signSplit cs).2.all Char.isDigit = true
      then some ((signSplit cs).1, natOfDigits (signSplit cs).2) else none) = none
  rw [if_neg h3]

theorem parseNumeric_none_of_comma {rest : List Char} (h : ',' ∈ rest) :
    parseNumeric rest = none := by
  have hdrop : ',' ∈ rest.dropWhile Char.isDigit :=
    mem_dropWhile_of_not (by decide) h
  unfold parseNumeric
  cases hr1 : rest.dropWhile Char.isDigit with
  | nil =>
    rw [hr1] at hdrop
    cases hdrop
  | cons c t =>
    rw [hr1] at hdrop
    by_cases hc : c = '.'
    · subst hc
      have ht : ',' ∈ t := comma_mem_tail hdrop (by decide)
      have ht2 : ',' ∈ t.dropWhile Char.isDigit :=
        mem_dropWhile_of_not (by decide) ht
      cases hr2 : t.dropWhile Char.isDigit with
      | nil =>
        rw [hr2] at ht2
        cases ht2
      | cons e t2 =>
        rw [hr2] at ht2
        by_cases he : e.toLower = 'e'
        · have he2 : ',' ∈ t2 := by
            rcases List.mem_cons.mp ht2 with h3 | h3
            · exfalso
              rw [← h3] at he
              exact absurd he (by decide)
            · exact h3
          simp [hr2, he, parseExp_none_of_comma he2]
        · simp [hr2, he]
    · by_cases he : c.toLower = 'e'
      · have he2 : ',' ∈ t := by
          rcases List.mem_cons.mp hdrop with h3 | h3
          · exfalso
            rw [← h3] at he
            exact absurd he (by decide)
          · exact h3
        simp [hc, he, parseExp_none_of_comma he2]
      · simp [hc, he]

theorem parseDecimalCore_none_of_comma {cs : List Char} (h : ',' ∈ cs) :
    parseDecimalCore cs = none := by
  have hrest := signSplit_comma h
  have hlow : ',' ∈ (signSplit cs).2.map Char.toLower := by
    have h1 := List.mem_map_of_mem Char.toLower hrest
    rwa [show Char.toLower ',' = ',' by decide] at h1
  have hinf : ¬ ((signSplit cs).2.map Char.toLower = "inf".data ∨
      (signSplit cs).2.map Char.toLower = "infinity".data) := by
    rintro (he | he) <;> rw [he] at hlow <;> exact absurd hlow (by decide)
  have hpre3 : ∀ (pre : List Char) (n : ℕ), pre.length = n →
      pre.isPrefixOf ((signSplit cs).2.map Char.toLower) = true →
      ¬ (',' ∈ pre) →
      ',' ∈ ((signSplit cs).2.map Char.toLower).drop n := by
    intro pre n hlen hp hnc
    obtain ⟨t2, ht2⟩ := List.isPrefixOf_iff_prefix.mp hp
    have hlow2 : ',' ∈ pre ++ t2 := by
      rw [ht2]
      exact hlow
    rcases List.mem_append.mp hlow2 with hm | hm
    · exact absurd hm hnc
    · rw [← ht2, List.drop_left' hlen]
      exact hm
  have hnan : ¬ ("nan".data.isPrefixOf ((signSplit cs).2.map Char.toLower) = true ∧
      (((signSplit cs).2.map Char.toLower).drop 3).all Char.isDigit = true) := by
    rintro ⟨hp, ha⟩
    exact not_all_digit_of_comma (hpre3 "nan".data 3 (by decide) hp (by decide)) ha
  have hsnan : ¬ ("snan".data.isPrefixOf ((signSplit cs).2.map Char.toLower) = true ∧
      (((signSplit cs).2.map Char.toLower).drop 4).all Char.isDigit = true) := by
    rintro ⟨hp, ha⟩
    exact not_all_digit_of_comma (hpre3 "snan".data 4 (by decide) hp (by decide)) ha
  unfold parseDecimalCore
  show (if (signSplit cs).2.map Char.toLower = "inf".data ∨
        (signSplit cs).2.map Char.toLower = "infinity".data then some DecValue.inf
    else if "nan".data.isPrefixOf ((signSplit cs).2.map Char.toLower) = true ∧
        (((signSplit cs).2.map Char.toLower).drop 3).all Char.isDigit = true then
      some DecValue.nan
    else if "snan".data.isPrefixOf ((signSplit cs).2.map Char.toLower) = true ∧
        (((signSplit cs).2.map Char.toLower).drop 4).all Char.isDigit = true then
      some DecValue.snan
    else (parseNumeric (signSplit cs).2).map
      (fun q => DecValue.finite (if (signSplit cs).1 then -q else q))) = none
  rw [if_neg hinf, if_neg hnan, if_neg hsnan, parseNumeric_none_of_comma hrest]
  rfl

theorem parseDecimal_none_of_comma {s : String} (h : ',' ∈ s.data) :
    parseDecimal s = none :=
  parseDecimalCore_none_of_comma (comma_mem_stripCore h)

theorem to_number_vstr_comma {s : String} (h : ',' ∈ s.data) :
    to_number (.vstr s) =
      .error (.invalidOperation "could not convert string to Decimal") := by
  simp [to_number, parseDecimal_none_of_comma h]

theorem fmtCore_comma_mem (i : ℤ) (d : ℕ) (cs : String) :
    ',' ∈ (fmtCore i d true cs).data := by
  unfold fmtCore
  by_cases h : cs = "" <;>
    simp [h, String.data_append, List.mem_append]

/-! ## Helper lemmas about the two branches of the pipeline -/

theorem dictGet_process_date (now : PtDate) (m : List (String × Value))
    {k : String} (h : k ≠ "date") :
    dictGet (process_date now m) k = dictGet m k := by
  unfold process_date
  exact dictGet_dictSet_ne m _ h

theorem process_skip (now : PtDate) (m : List (String × Value))
    (h : dictGet m "qty" = none ∨ dictGet m "cost_per_unit" = none) :
    process_costs_and_dates now m = .ok (process_date now m) := by
  have hq := dictGet_process_date now m (k := "qty") (by decide)
  have hc := dictGet_process_date now m (k := "cost_per_unit") (by decide)
  rcases h with h | h
  · simp only [process_costs_and_dates, hq, h]
    cases dictGet (process_date now m) "cost_per_unit" <;> rfl
  · simp only [process_costs_and_dates, hc, h]
    cases dictGet (process_date now m) "qty" <;> rfl

theorem exceptBind_ok {ε α β : Type} (a : α) (f : α → Except ε β) :
    ((Except.ok a : Except ε α) >>= f) = f a := rfl

/-- The cost branch of the pipeline, under the conditions that make every
`to_number` call succeed: the rounded inputs and their rounded product stay
below the `10²⁶` capacity of the default decimal context. -/
theorem process_cost_branch (now : PtDate) (m : List (String × Value)) (q c : ℚ)
    (hq : dictGet m "qty" = some (.vnum q))
    (hc : dictGet m "cost_per_unit" = some (.vnum c))
    (h1 : ¬ 10 ^ 26 ≤ |quantizeHU q|)
    (h2 : ¬ 10 ^ 26 ≤ |quantizeHU c|)
    (h3 : ¬ 10 ^ 26 ≤ |quantizeHU (quantizeHU q * quantizeHU c)|) :
    process_costs_and_dates now m =
      .ok (dictSet (dictSet (dictSet (dictSet (process_date now m)
        "total_cost" (.vstr (fmtCore (pytrunc (quantizeHU (quantizeHU q * quantizeHU c)))
          (dec2 (quantizeHU (quantizeHU q * quantizeHU c))) true "€")))
        "total_cost_words" (.vstr (wordsCore (pytrunc (quantizeHU (quantizeHU q * quantizeHU c)))
          (dec2 (quantizeHU (quantizeHU q * quantizeHU c))) (some "euro") "pt_pt")))
        "qty" (.vstr (fmtCore (pytrunc (quantizeHU q)) (dec2 (quantizeHU q)) true "")))
        "cost_per_unit" (.vstr (fmtCore (pytrunc (quantizeHU c)) (dec2 (quantizeHU c)) true "€"))) := by
  have hq' : dictGet (process_date now m) "qty" = some (.vnum q) := by
    rw [dictGet_process_date now m (k := "qty") (by decide)]
    exact hq
  have hc' : dictGet (process_date now m) "cost_per_unit" = some (.vnum c) := by
    rw [dictGet_process_date now m (k := "cost_per_unit") (by decide)]
    exact hc
  have e1 : to_number (Value.vnum q) = .ok (.vnum (quantizeHU q)) := by
    simp [to_number, h1]
  have e2 : to_number (Value.vnum c) = .ok (.vnum (quantizeHU c)) := by
    simp [to_number, h2]
  have e3 : process_total_cost (.vnum (quantizeHU q)) (.vnum (quantizeHU c)) =
      .ok (.vnum (quantizeHU (quantizeHU q * quantizeHU c))) := by
    simp [process_total_cost, isNumeric, floatMul, to_number, h3]
  simp only [process_costs_and_dates, hq', hc', e1, e2, e3, exceptBind_ok]
  rfl

/-! ## Claim theorems -/

/-- C2 counterexample: the claim says the sign character is never separated
("negative numbers keep the '-' attached to the leading digit, never followed
by a '.'"), but `format_number_pt(-123.45)` yields `"-.123,45 €"`: the loop
iterates over `str(int(number))` including the `'-'`, so an integer part with
a multiple-of-3 digit count gets the separator right after the sign. -/
theorem C2_counterexample_sign_separated :
    format_number_pt (.vnum (-123.45 : ℚ)) true "€" = .ok "-.123,45 €" ∧
    "-.123,45 €".data.take 2 = ['-', '.'] := by
  constructor
  · decide
  · rfl

/-- C2 (amended): `format_number_pt` inserts `'.'` every 3 characters from the
right into the string form of `int(number)` *counting the sign character*:
the positive examples hold (`1234.56 ↦ "1.234,56 €"`,
`1000000 ↦ "1.000.000,00 €"`, and `10¹² ↦ "1.000.000.000.000,00 €"`), a
negative number whose integer part has a digit count that is not a multiple
of 3 keeps `'-'` attached (`-1234.56 ↦ "-1.234,56 €"`, and in general a
4-character signed string separates between the first and second digit), but
a negative number whose integer part has 3 or 6 digits gets `'-'` followed by
`'.'` (`-123.45 ↦ "-.123,45 €"`). -/
theorem C2_thousands_separator_amended :
    format_number_pt (.vnum (1234.56 : ℚ)) true "€" = .ok "1.234,56 €" ∧
    format_number_pt (.vnum (1000000 : ℚ)) true "€" = .ok "1.000.000,00 €" ∧
    format_number_pt (.vnum (1000000000000 : ℚ)) true "€" =
      .ok "1.000.000.000.000,00 €" ∧
    format_number_pt (.vnum (-1234.56 : ℚ)) true "€" = .ok "-1.234,56 €" ∧
    (∀ a b c : Char, sepThousandsL ['-', a, b, c] = ['-', '.', a, b, c]) ∧
    (∀ a b c d : Char, sepThousandsL ['-', a, b, c, d] = ['-', a, '.', b, c, d]) ∧
    (∀ a b c d e f : Char,
      sepThousandsL ['-', a, b, c, d, e, f] = ['-', '.', a, b, c, '.', d, e, f]) ∧
    format_number_pt (.vnum (-123.45 : ℚ)) true "€" = .ok "-.123,45 €" := by
  refine ⟨by decide, by decide, by decide, by decide, ?_, ?_, ?_, by decide⟩
  · intro a b c
    with_unfolding_all rfl
  · intro a b c d
    with_unfolding_all rfl
  · intro a b c d e f
    with_unfolding_all rfl

/-- C3 counterexample: `split_number_parts` takes the integer part from
`int(number)` (the unrounded value) but the decimal part from
`f"{number:.2f}"`, so `format_number_pt(999.999)` yields `"999,00 €"` — the
integer part is inconsistent with the rounded decimal part — while
`to_number(999.999) = 1000.0` formats as `"1.000,00 €"`.  The formatted
output therefore does not equal the formatting of `to_number` of the input,
and the rounding used (`.2f` on the float) is not the Rounder's half-up
rule. -/
theorem C3_counterexample_truncation_artifact :
    format_number_pt (.vnum (999.999 : ℚ)) true "€" = .ok "999,00 €" ∧
    to_number (.vnum (999.999 : ℚ)) = .ok (.vnum (1000 : ℚ)) ∧
    format_number_pt (.vnum (1000 : ℚ)) true "€" = .ok "1.000,00 €" ∧
    "999,00 €" ≠ "1.000,00 €" := by
  refine ⟨by decide, by decide, by decide, by decide⟩

/-- C3 (amended): the decimal part of `format_number_pt` comes from fixed
2-decimal string formatting of the float (round-half-even), while the integer
part is `int(number)` applied to the *unrounded* value; hence the formatted
output equals the formatting of `to_number` of the input only when the input
already has at most two fractional decimal digits and is within the default
decimal context's capacity (magnitude below `10²⁶`, where `to_number`
succeeds and is the identity — this holds for every such input, every
`show_decimals` flag and every currency symbol), and not in general
(counterexample `999.999`; and at `10²⁶` the real `to_number` raises while
`format_number_pt` succeeds). -/
theorem C3_format_of_rounded_amended :
    ∀ (q : ℚ) (sd : Bool) (cs : String), (100 * q).den = 1 → |q| < 10 ^ 26 →
      ∃ r, to_number (.vnum q) = .ok r ∧
        format_number_pt r sd cs = format_number_pt (.vnum q) sd cs := by
  intro q sd cs h hb
  have hq : quantizeHU q = q := quantizeHU_eq_self h
  have hnb : ¬ 10 ^ 26 ≤ |quantizeHU q| := by
    rw [hq]
    exact not_le.mpr hb
  exact ⟨.vnum q, by simp [to_number, hnb, hq, hb], rfl⟩

/-- Witness for the amended C3 at `1234.56`. -/
theorem C3_format_of_rounded_amended_witness :
    (100 * (1234.56 : ℚ)).den = 1 ∧ |(1234.56 : ℚ)| < 10 ^ 26 ∧
    ∃ r, to_number (.vnum (1234.56 : ℚ)) = .ok r ∧
      format_number_pt r true "€" = format_number_pt (.vnum (1234.56 : ℚ)) true "€" :=
  ⟨by decide, by decide,
    C3_format_of_rounded_amended (1234.56 : ℚ) true "€" (by decide) (by decide)⟩

/-- C6: `process_total_cost(None, 10)` raises a `TypeError`;
`to_number(float('inf'))` and `to_number(float('-inf'))` raise a
`ValueError`; `format_number_pt(None)` raises a `TypeError`; and such an
error propagates out of `process_costs_and_dates`, which installs no handler:
with `qty = float('inf')` the whole call fails with the Rounder's
`ValueError`. -/
theorem C6_error_cases :
    process_total_cost .vnone (.vnum 10) =
      .error (.typeError "Both quantity and cost_per_unit must be numeric values") ∧
    to_number (.vinf true) =
      .error (.valueError "Cannot convert infinity values to numbers") ∧
    to_number (.vinf false) =
      .error (.valueError "Cannot convert infinity values to numbers") ∧
    format_number_pt .vnone true "€" =
      .error (.typeError "int() argument must be a real number, not NoneType") ∧
    process_costs_and_dates ⟨1, 2025⟩ [("qty", .vinf true), ("cost_per_unit", .vnum 1)] =
      .error (.valueError "Cannot convert infinity values to numbers") := by
  refine ⟨rfl, rfl, rfl, rfl, ?_⟩
  decide

/-- C1 counterexample: the claim promises a rounded float for *every* number,
but the source quantizes under the default 28-digit decimal context, so at
`10²⁶` (exactly representable as a float, hence an exact string form)
`to_number` raises `decimal.InvalidOperation` instead of returning. -/
theorem C1_counterexample_precision_limit :
    to_number (.vnum ((10 : ℚ) ^ 26)) =
      .error (.invalidOperation "quantize result has too many digits for current context") := by
  decide

/-- C1 (amended): for every number (or numeric string) whose half-up rounding
stays below the default decimal context's capacity of `10²⁶`, `to_number`
converts the string form to the exact decimal value and rounds it to 2
fractional digits by round-half-up: the result `r` is a multiple of `1/100`
within `1/200` of the input, on an exact tie the magnitude strictly grows
(ties away from zero — never banker's rounding: any other two-decimal value
that close is strictly smaller in absolute value); at and beyond that
capacity it raises `decimal.InvalidOperation`; in particular
`to_number(1.005) = 1.01` and `to_number(1.004) = 1.00`, also for the
numeric strings `"1.005"`/`"1.004"`. -/
theorem C1_to_number_round_half_up_amended :
    (∀ q : ℚ, |quantizeHU q| < 10 ^ 26 →
      ∃ r : ℚ, to_number (.vnum q) = .ok (.vnum r) ∧ (100 * r).den = 1 ∧
        |r - q| ≤ 1/200 ∧
        (Int.fract (100 * |q|) = 1/2 → |r| = |q| + 1/200) ∧
        (∀ s : ℚ, (100 * s).den = 1 → |s - q| ≤ 1/200 → s = r ∨ |s| < |r|)) ∧
    (∀ q : ℚ, 10 ^ 26 ≤ |quantizeHU q| →
      to_number (.vnum q) =
        .error (.invalidOperation "quantize result has too many digits for current context")) ∧
    to_number (.vnum (1.005 : ℚ)) = .ok (.vnum (1.01 : ℚ)) ∧
    to_number (.vnum (1.004 : ℚ)) = .ok (.vnum (1 : ℚ)) ∧
    to_number (.vstr "1.005") = .ok (.vnum (1.01 : ℚ)) ∧
    to_number (.vstr "1.004") = .ok (.vnum (1 : ℚ)) := by
  refine ⟨?_, ?_, by decide, by decide, by decide, by decide⟩
  · intro q hb
    refine ⟨quantizeHU q, ?_, den_hundred_mul_quantizeHU q, abs_quantizeHU_sub_le q,
      fun h => quantizeHU_tie h, fun s h1 h2 => quantizeHU_nearest_max q s h1 h2⟩
    simp [to_number, not_le.mpr hb]
  · intro q hb
    simp [to_number, hb]

/-- Witness for the amended C1 at the tie `1.005`: the rounding is in range,
the competing two-decimal value `1.00` is strictly smaller in magnitude, and
the tie moves the magnitude up by `1/200`. -/
theorem C1_to_number_round_half_up_amended_witness :
    |quantizeHU (1.005 : ℚ)| < 10 ^ 26 ∧
    ((1 : ℚ) = (1.01 : ℚ) ∨ |(1 : ℚ)| < |(1.01 : ℚ)|) ∧
    |(1.01 : ℚ)| = |(1.005 : ℚ)| + 1/200 := by
  obtain ⟨H, _, e1, _, _, _⟩ := C1_to_number_round_half_up_amended
  obtain ⟨r, hok, hden, hnear, htie, hmax⟩ := H (1.005 : ℚ) (by decide)
  have hr : r = (1.01 : ℚ) := Value.vnum.inj (Except.ok.inj (hok.symm.trans e1))
  subst hr
  exact ⟨by decide, hmax 1 (by decide) (by decide), htie (by decide)⟩

/-- C9 counterexample: `to_number(float('nan'))` *succeeds* — the quiet NaN
passes through `quantize` unchanged and `float(...)` returns `nan` — and
feeding the result back succeeds again with `nan`; but Python's `nan == nan`
is false, so the claimed equation `to_number(to_number(n)) == to_number(n)`
fails on a numeric input for which `to_number` succeeds. -/
theorem C9_counterexample_nan :
    to_number Value.vnan = .ok Value.vnan ∧
    pyEq Value.vnan Value.vnan = false :=
  ⟨rfl, rfl⟩

/-- C9 (amended): `to_number` is idempotent on every input on which it
succeeds *with a (non-NaN) float result*: the result is a two-decimal value
below the context capacity, rounding it again succeeds and returns it
unchanged, and Python's `==` holds on it.  (The one succeeding input class
with a NaN result breaks the `==` form of the equation, since
`nan != nan`.) -/
theorem C9_to_number_idempotent_amended :
    ∀ (v : Value) (q : ℚ), to_number v = .ok (.vnum q) →
      to_number (.vnum q) = .ok (.vnum q) ∧ pyEq (.vnum q) (.vnum q) = true := by
  intro v q h
  have hq : (∃ p, q = quantizeHU p) ∧ ¬ 10 ^ 26 ≤ |q| := by
    cases v with
    | vnum p =>
      by_cases hb : 10 ^ 26 ≤ |quantizeHU p|
      · simp [to_number, hb] at h
      · simp [to_number, hb] at h
        exact ⟨⟨p, h.symm⟩, by rw [← h]; exact hb⟩
    | vinf b => simp [to_number] at h
    | vnan => simp [to_number] at h
    | vnone => simp [to_number] at h
    | vstr s =>
      cases hp : parseDecimal s with
      | none => simp [to_number, hp] at h
      | some dv =>
        cases dv with
        | finite p =>
          by_cases hb : 10 ^ 26 ≤ |quantizeHU p|
          · simp [to_number, hp, hb] at h
          · simp [to_number, hp, hb] at h
            exact ⟨⟨p, h.symm⟩, by rw [← h]; exact hb⟩
        | inf => simp [to_number, hp] at h
        | nan => simp [to_number, hp] at h
        | snan => simp [to_number, hp] at h
  obtain ⟨⟨p, rfl⟩, hb⟩ := hq
  have hid : quantizeHU (quantizeHU p) = quantizeHU p :=
    quantizeHU_eq_self (den_hundred_mul_quantizeHU p)
  have hb2 : ¬ 10 ^ 26 ≤ |quantizeHU (quantizeHU p)| := by
    rw [hid]
    exact hb
  constructor
  · simp [to_number, hb2, hid, not_le.mp hb]
  · simp [pyEq]

/-- Witness for the amended C9 at `1.005`. -/
theorem C9_to_number_idempotent_amended_witness :
    to_number (.vnum (1.005 : ℚ)) = .ok (.vnum (1.01 : ℚ)) ∧
    (to_number (.vnum (1.01 : ℚ)) = .ok (.vnum (1.01 : ℚ)) ∧
      pyEq (.vnum (1.01 : ℚ)) (.vnum (1.01 : ℚ)) = true) :=
  ⟨by decide,
    C9_to_number_idempotent_amended (.vnum (1.005 : ℚ)) (1.01 : ℚ) (by decide)⟩

/-- C5: `num_to_words_pt` never raises — whenever its `try` body fails with
any internal exception, the function returns `str(number)`; it is total (in
this embedding it is a plain `String`-valued function). -/
theorem C5_num_to_words_soft_fail :
    ∀ (v : Value) (currency : Option String) (lang : String) (e : PyErr),
      num_to_words_ptE v currency lang = .error e →
      num_to_words_pt v currency lang = pyStr v := by
  intro v c l e h
  unfold num_to_words_pt
  rw [h]

/-- Witness for C5: on `None` the body raises (a `TypeError` inside
`split_number_parts`) and the function returns `str(None) = "None"`. -/
theorem C5_num_to_words_soft_fail_witness :
    num_to_words_ptE .vnone none "pt_pt" =
      .error (.typeError "int() argument must be a real number, not NoneType") ∧
    num_to_words_pt .vnone none "pt_pt" = "None" :=
  ⟨rfl, C5_num_to_words_soft_fail .vnone none "pt_pt" _ rfl⟩

/-- C7: the "mil" comma rule.  `num_to_words_pt(1234)` is
`"mil, duzentos e trinta e quatro"` and `num_to_words_pt(1000)` is `"mil"`
(no comma for an exact multiple of 1000 — in that case the word form is
always left unchanged); and whenever the word form contains "mil", the
integer part exceeds 1000 and is not a multiple of 1000, a comma is inserted
after an inner `" mil "` or a leading `"mil "`, while any other shape (such
as a trailing `" mil"`) is left unchanged. -/
theorem C7_mil_comma :
    num_to_words_pt (.vnum 1234) = "mil, duzentos e trinta e quatro" ∧
    num_to_words_pt (.vnum 1000) = "mil" ∧
    (∀ (w : String) (n : ℤ), n % 1000 = 0 → milComma w n = w) ∧
    (∀ (w : String) (n : ℤ), strContains w "mil" = true → 1000 < n →
      n % 1000 ≠ 0 →
      (strContains w " mil " = true → milComma w n = strReplace w " mil " " mil, ") ∧
      (strContains w " mil " = false → strStartsWith w "mil " = true →
        milComma w n = strReplace w "mil " "mil, ") ∧
      (strContains w " mil " = false → strStartsWith w "mil " = false →
        milComma w n = w)) := by
  refine ⟨by decide, by decide, ?_, ?_⟩
  · intro w n h
    unfold milComma
    rw [if_neg]
    exact fun hcon => hcon.2.2 h
  · intro w n h1 h2 h3
    refine ⟨?_, ?_, ?_⟩
    · intro h4
      simp [milComma, h1, h2, h3, h4]
    · intro h4 h5
      simp [milComma, h1, h2, h3, h4, h5]
    · intro h4 h5
      simp [milComma, h1, h2, h3, h4, h5]

/-- Witness for C7: the word form of 1234 goes through the leading-"mil "
branch, and a trailing-"mil" form (5000) is left unchanged via the
multiple-of-1000 guard. -/
theorem C7_mil_comma_witness :
    milComma "mil duzentos e trinta e quatro" 1234 =
      strReplace "mil duzentos e trinta e quatro" "mil " "mil, " ∧
    milComma "cinco mil" 5000 = "cinco mil" := by
  refine ⟨?_, ?_⟩
  · exact (C7_mil_comma.2.2.2 "mil duzentos e trinta e quatro" 1234 (by decide)
      (by decide) (by decide)).2.1 (by decide) (by decide)
  · exact C7_mil_comma.2.2.1 "cinco mil" 5000 (by decide)

/-- C8 counterexample: the claim promises the singular form "um <currency>"
for *every* number of magnitude 1, but the code tests `int_part == 1`
exactly, so `num_to_words_pt(-1, currency="euro")` (magnitude 1) produces the
plural `"menos um euros"`, not a singular "…um euro" form. -/
theorem C8_counterexample_negative_one :
    num_to_words_pt (.vnum (-1)) (some "euro") = "menos um euros" ∧
    "menos um euros" ≠ "menos um euro" := by
  exact ⟨by decide, by decide⟩

/-- C8 (amended): with a currency, the singular "um <currency>" is used
exactly when the *integer part equals 1* (so `1.50` is singular but `-1`,
of magnitude 1, gets the plural "menos um euros"); otherwise the plural is
formed by appending "s"; when the cent part is positive, " e <cent-words>
centavo" is appended for exactly 1 cent and " e <cent-words> centavos"
otherwise; in particular `num_to_words_pt(1) = "um euro"`,
`num_to_words_pt(2) = "dois euros"`,
`num_to_words_pt(1.50) = "um euro e cinquenta centavos"` and
`num_to_words_pt(1000.01) = "mil euros e um centavo"`. -/
theorem C8_currency_words_amended :
    num_to_words_pt (.vnum 1) (some "euro") = "um euro" ∧
    num_to_words_pt (.vnum 2) (some "euro") = "dois euros" ∧
    num_to_words_pt (.vnum (1.50 : ℚ)) (some "euro") =
      "um euro e cinquenta centavos" ∧
    num_to_words_pt (.vnum (1000.01 : ℚ)) (some "euro") =
      "mil euros e um centavo" ∧
    num_to_words_pt (.vnum (-1)) (some "euro") = "menos um euros" ∧
    (∀ cur : String, wordsCore 1 0 (some cur) "pt_pt" = "um " ++ cur) ∧
    (∀ cur : String, wordsCore 1 1 (some cur) "pt_pt" =
      "um " ++ cur ++ " e " ++ "um" ++ " centavo") ∧
    (∀ (cur : String) (d : ℕ), 1 < d → wordsCore 1 d (some cur) "pt_pt" =
      "um " ++ cur ++ " e " ++ num2words (d : ℤ) ++ " centavos") ∧
    (∀ (cur : String) (i : ℤ), i ≠ 1 → wordsCore i 0 (some cur) "pt_pt" =
      milComma (num2words i) i ++ " " ++ cur ++ "s") ∧
    (∀ (cur : String) (i : ℤ), i ≠ 1 → wordsCore i 1 (some cur) "pt_pt" =
      milComma (num2words i) i ++ " " ++ cur ++ "s" ++ " e " ++ "um" ++ " centavo") ∧
    (∀ (cur : String) (i : ℤ) (d : ℕ), i ≠ 1 → 1 < d →
      wordsCore i d (some cur) "pt_pt" =
        milComma (num2words i) i ++ " " ++ cur ++ "s" ++ " e " ++
          num2words (d : ℤ) ++ " centavos") := by
  refine ⟨by decide, by decide, by decide, by decide, by decide,
    ?_, ?_, ?_, ?_, ?_, ?_⟩
  · intro cur
    with_unfolding_all rfl
  · intro cur
    with_unfolding_all rfl
  · intro cur d hd
    have h1 : 0 < d := by omega
    have h2 : d ≠ 1 := by omega
    simp only [wordsCore, if_pos rfl, if_pos h1, if_neg h2]
    with_unfolding_all rfl
  · intro cur i hi
    simp only [wordsCore, if_neg hi]
    with_unfolding_all rfl
  · intro cur i hi
    simp only [wordsCore, if_neg hi]
    with_unfolding_all rfl
  · intro cur i d hi hd
    have h1 : 0 < d := by omega
    have h2 : d ≠ 1 := by omega
    simp only [wordsCore, if_neg hi, if_pos h1, if_neg h2]

/-- Witness for the amended C8: the plural branch at `i = 2`, `d = 50` and
the singular branch at `d = 0`. -/
theorem C8_currency_words_amended_witness :
    wordsCore 2 50 (some "euro") "pt_pt" =
      milComma (num2words 2) 2 ++ " " ++ "euro" ++ "s" ++ " e " ++
        num2words (50 : ℤ) ++ " centavos" ∧
    wordsCore 1 0 (some "euro") "pt_pt" = "um " ++ "euro" :=
  ⟨C8_currency_words_amended.2.2.2.2.2.2.2.2.2.2 "euro" 2 50 (by decide) (by decide),
    C8_currency_words_amended.2.2.2.2.2.1 "euro"⟩

theorem strContains_comma_of_mem {s : String} (h : ',' ∈ s.data) :
    strContains s "," = true := by
  unfold strContains
  rw [List.any_eq_true]
  obtain ⟨i, hlt, hgi⟩ := List.getElem_of_mem h
  refine ⟨i, List.mem_range.mpr (by omega), ?_⟩
  have hdrop : s.data.drop i = ',' :: s.data.drop (i + 1) := by
    rw [List.drop_eq_getElem_cons hlt, hgi]
  rw [hdrop]
  simp [List.isPrefixOf]

/-- C4 counterexample: the claim says the returned map contains all of the
input's original keys/values plus `date`, but a map that already binds
`'date'` has that value overwritten with the current-date *string* (which can
never equal a non-string original value, whatever the clock says), so the
original pair is lost. -/
theorem C4_counterexample_date_overwritten :
    process_costs_and_dates ⟨10, 2026⟩ [("date", .vnum 0)] =
      .ok [("date", .vstr "outubro de 2026")] ∧
    Value.vstr "outubro de 2026" ≠ .vnum 0 := by
  exact ⟨by decide, by decide⟩

/-- C4 (amended): `process_costs_and_dates` never mutates its input (it works
on a copy — modelled by purity) and returns a map that contains all of the
input's original keys/values *except at the keys it writes*: `'date'` is
always overwritten with the current-date string, and when both `'qty'` and
`'cost_per_unit'` are present those two plus `'total_cost'` and
`'total_cost_words'` are overwritten with formatted strings; when either of
`'qty'`/`'cost_per_unit'` is missing, cost processing is skipped entirely —
every key other than `'date'` (including a lone `'qty'`/`'cost_per_unit'`,
which passes through unformatted, and the absent cost keys) is exactly as in
the input; the cost branch succeeds only while the half-up-rounded values of
`qty`, `cost_per_unit` and their product stay below the default decimal
context's 28-digit capacity (magnitude `< 10^26`) — beyond it the whole call
raises `decimal.InvalidOperation`. -/
theorem C4_pipeline_frame_amended :
    (∀ (now : PtDate) (m : List (String × Value)),
      (dictGet m "qty" = none ∨ dictGet m "cost_per_unit" = none) →
      ∃ w, process_costs_and_dates now m = .ok w ∧
        dictGet w "date" = some (.vstr (dateStr now)) ∧
        ∀ k, k ≠ "date" → dictGet w k = dictGet m k) ∧
    (∀ (now : PtDate) (m : List (String × Value)) (q c : ℚ),
      dictGet m "qty" = some (.vnum q) →
      dictGet m "cost_per_unit" = some (.vnum c) →
      ¬ 10 ^ 26 ≤ |quantizeHU q| →
      ¬ 10 ^ 26 ≤ |quantizeHU c| →
      ¬ 10 ^ 26 ≤ |quantizeHU (quantizeHU q * quantizeHU c)| →
      ∃ w, process_costs_and_dates now m = .ok w ∧
        dictGet w "date" = some (.vstr (dateStr now)) ∧
        (∃ s, dictGet w "qty" = some (.vstr s)) ∧
        (∃ s, dictGet w "cost_per_unit" = some (.vstr s)) ∧
        (∃ s, dictGet w "total_cost" = some (.vstr s)) ∧
        (∃ s, dictGet w "total_cost_words" = some (.vstr s)) ∧
        ∀ k, k ≠ "date" → k ≠ "qty" → k ≠ "cost_per_unit" →
          k ≠ "total_cost" → k ≠ "total_cost_words" →
          dictGet w k = dictGet m k) := by
  constructor
  · intro now m h
    refine ⟨process_date now m, process_skip now m h, ?_, ?_⟩
    · exact dictGet_dictSet_self m "date" _
    · intro k hk
      exact dictGet_process_date now m hk
  · intro now m q c hq hc hb1 hb2 hb3
    refine ⟨_, process_cost_branch now m q c hq hc hb1 hb2 hb3, ?_, ?_, ?_, ?_, ?_, ?_⟩
    · rw [dictGet_dictSet_ne _ _ (show ("date" : String) ≠ "cost_per_unit" by decide),
        dictGet_dictSet_ne _ _ (show ("date" : String) ≠ "qty" by decide),
        dictGet_dictSet_ne _ _ (show ("date" : String) ≠ "total_cost_words" by decide),
        dictGet_dictSet_ne _ _ (show ("date" : String) ≠ "total_cost" by decide)]
      exact dictGet_dictSet_self m "date" _
    · rw [dictGet_dictSet_ne _ _ (show ("qty" : String) ≠ "cost_per_unit" by decide)]
      exact ⟨_, dictGet_dictSet_self _ "qty" _⟩
    · exact ⟨_, dictGet_dictSet_self _ "cost_per_unit" _⟩
    · rw [dictGet_dictSet_ne _ _ (show ("total_cost" : String) ≠ "cost_per_unit" by decide),
        dictGet_dictSet_ne _ _ (show ("total_cost" : String) ≠ "qty" by decide),
        dictGet_dictSet_ne _ _ (show ("total_cost" : String) ≠ "total_cost_words" by decide)]
      exact ⟨_, dictGet_dictSet_self _ "total_cost" _⟩
    · rw [dictGet_dictSet_ne _ _ (show ("total_cost_words" : String) ≠ "cost_per_unit" by decide),
        dictGet_dictSet_ne _ _ (show ("total_cost_words" : String) ≠ "qty" by decide)]
      exact ⟨_, dictGet_dictSet_self _ "total_cost_words" _⟩
    · intro k h1 h2 h3 h4 h5
      rw [dictGet_dictSet_ne _ _ h3, dictGet_dictSet_ne _ _ h2,
        dictGet_dictSet_ne _ _ h5, dictGet_dictSet_ne _ _ h4]
      exact dictGet_process_date now m h1

/-- Witness for the amended C4: skip branch with a lone `'qty'`. -/
theorem C4_pipeline_frame_amended_witness :
    ∃ w, process_costs_and_dates ⟨3, 2025⟩ [("qty", .vnum 5)] = .ok w ∧
      dictGet w "date" = some (.vstr (dateStr ⟨3, 2025⟩)) ∧
      ∀ k, k ≠ "date" → dictGet w k = dictGet [("qty", Value.vnum 5)] k :=
  C4_pipeline_frame_amended.1 ⟨3, 2025⟩ [("qty", .vnum 5)] (Or.inr (by decide))

/-- C10 counterexample: the claim says that for *every* map with numeric
`'qty'` and `'cost_per_unit'` the first call succeeds; but with
`qty = 10^26` the Rounder's `quantize` overflows the default decimal
context's 28-digit precision and the first call already raises
`decimal.InvalidOperation`, before any re-application is attempted. -/
theorem C10_counterexample_precision_limit :
    process_costs_and_dates ⟨10, 2026⟩
      [("qty", .vnum ((10 : ℚ) ^ 26)), ("cost_per_unit", .vnum 1)] =
      .error (.invalidOperation
        "quantize result has too many digits for current context") := by
  decide

/-- C10 (amended): once cost processing has run, the pipeline's output cannot
be fed back in — for every map with numeric `'qty'` and `'cost_per_unit'`
whose half-up-rounded values and product stay below the default decimal
context's 28-digit capacity (magnitude `< 10^26`), the first call succeeds,
replacing `'qty'` with a Portuguese-formatted string that contains a decimal
comma, and a second call fails with `decimal.InvalidOperation`: the Rounder's
`Decimal(str(...))` conversion cannot parse the comma-formatted string. -/
theorem C10_reapplication_fails_amended :
    ∀ (now now2 : PtDate) (m : List (String × Value)) (q c : ℚ),
      dictGet m "qty" = some (.vnum q) →
      dictGet m "cost_per_unit" = some (.vnum c) →
      ¬ 10 ^ 26 ≤ |quantizeHU q| →
      ¬ 10 ^ 26 ≤ |quantizeHU c| →
      ¬ 10 ^ 26 ≤ |quantizeHU (quantizeHU q * quantizeHU c)| →
      ∃ (w : List (String × Value)) (s : String),
        process_costs_and_dates now m = .ok w ∧
        dictGet w "qty" = some (.vstr s) ∧
        strContains s "," = true ∧
        process_costs_and_dates now2 w =
          .error (.invalidOperation "could not convert string to Decimal") := by
  intro now now2 m q c hq hc hb1 hb2 hb3
  refine ⟨_, fmtCore (pytrunc (quantizeHU q)) (dec2 (quantizeHU q)) true "",
    process_cost_branch now m q c hq hc hb1 hb2 hb3, ?_, ?_, ?_⟩
  · rw [dictGet_dictSet_ne _ _ (show ("qty" : String) ≠ "cost_per_unit" by decide)]
    exact dictGet_dictSet_self _ "qty" _
  · exact strContains_comma_of_mem (fmtCore_comma_mem _ _ _)
  · have hqty2 : dictGet (process_date now2 (dictSet (dictSet (dictSet (dictSet
        (process_date now m)
        "total_cost" (.vstr (fmtCore (pytrunc (quantizeHU (quantizeHU q * quantizeHU c)))
          (dec2 (quantizeHU (quantizeHU q * quantizeHU c))) true "€")))
        "total_cost_words" (.vstr (wordsCore (pytrunc (quantizeHU (quantizeHU q * quantizeHU c)))
          (dec2 (quantizeHU (quantizeHU q * quantizeHU c))) (some "euro") "pt_pt")))
        "qty" (.vstr (fmtCore (pytrunc (quantizeHU q)) (dec2 (quantizeHU q)) true "")))
        "cost_per_unit" (.vstr (fmtCore (pytrunc (quantizeHU c)) (dec2 (quantizeHU c)) true "€"))))
        "qty" =
        some (.vstr (fmtCore (pytrunc (quantizeHU q)) (dec2 (quantizeHU q)) true "")) := by
      rw [dictGet_process_date _ _ (show ("qty" : String) ≠ "date" by decide),
        dictGet_dictSet_ne _ _ (show ("qty" : String) ≠ "cost_per_unit" by decide)]
      exact dictGet_dictSet_self _ "qty" _
    have hcpu2 : dictGet (process_date now2 (dictSet (dictSet (dictSet (dictSet
        (process_date now m)
        "total_cost" (.vstr (fmtCore (pytrunc (quantizeHU (quantizeHU q * quantizeHU c)))
          (dec2 (quantizeHU (quantizeHU q * quantizeHU c))) true "€")))
        "total_cost_words" (.vstr (wordsCore (pytrunc (quantizeHU (quantizeHU q * quantizeHU c)))
          (dec2 (quantizeHU (quantizeHU q * quantizeHU c))) (some "euro") "pt_pt")))
        "qty" (.vstr (fmtCore (pytrunc (quantizeHU q)) (dec2 (quantizeHU q)) true "")))
        "cost_per_unit" (.vstr (fmtCore (pytrunc (quantizeHU c)) (dec2 (quantizeHU c)) true "€"))))
        "cost_per_unit" =
        some (.vstr (fmtCore (pytrunc (quantizeHU c)) (dec2 (quantizeHU c)) true "€")) := by
      rw [dictGet_process_date _ _ (show ("cost_per_unit" : String) ≠ "date" by decide)]
      exact dictGet_dictSet_self _ "cost_per_unit" _
    simp only [process_costs_and_dates, hqty2, hcpu2,
      to_number_vstr_comma (fmtCore_comma_mem (pytrunc (quantizeHU q)) (dec2 (quantizeHU q)) "")]
    rfl

/-- Witness for the amended C10 at `qty = 2`, `cost_per_unit = 10` (the first
call turns `qty` into `"2,00"`). -/
theorem C10_reapplication_fails_amended_witness :
    ∃ (w : List (String × Value)) (s : String),
      process_costs_and_dates ⟨10, 2026⟩
        [("qty", .vnum 2), ("cost_per_unit", .vnum 10)] = .ok w ∧
      dictGet w "qty" = some (.vstr s) ∧
      strContains s "," = true ∧
      process_costs_and_dates ⟨11, 2026⟩ w =
        .error (.invalidOperation "could not convert string to Decimal") :=
  C10_reapplication_fails_amended ⟨10, 2026⟩ ⟨11, 2026⟩ _ 2 10 (by decide) (by decide)
    (by decide) (by decide) (by decide)

end Archidocs
